import Mathlib

/-!
Verification of the synaptic-plasticity update engine
(`src/bindsnet/learning/learning.py`).

Shallow embedding conventions:
* A weight matrix of shape `[source_units, target_units]` is a function
  `Fin ns → Fin nt → K` over an ordered field `K` (`ℚ` for the rules that
  involve no transcendental functions; `ℝ` with `Real.exp` for the
  reward-modulated rules MSTDP/MSTDPET, whose source calls `torch.exp`).
* A batched tensor of shape `[batch, units]` is `Fin b → Fin n → K`.
* The configurable batch reduction (`self.reduction(t, dim=0)`, default
  `torch.mean`) is an arbitrary function `red : (Fin b → M) → M`.
* The finite-or-infinite weight bounds `wmin`/`wmax` are `Option K`:
  `none` stands for `-np.inf` for `wmin` and for `np.inf` for `wmax`
  (the defaults in the repository), `some q` for a finite bound.  The
  source test `wmin != -np.inf` becomes `wmin.isSome`, and likewise for
  `wmax != np.inf`.
* An indexing error (a read outside a tensor's valid torch index range)
  is `Option.none`.
* Per-rule mutable state (`p_plus`, `p_minus`, `eligibility`,
  `eligibility_trace`) is an explicit state record threaded through a
  step function; the source's lazy `hasattr` initialisation to zero
  tensors of fixed shapes is the zero initial state of the run.
-/

section BoundsEnforcer

variable {K : Type} [LinearOrderedField K] {m n b ns nt : ℕ}

/-- `torch.clamp_(wmin, wmax)` applied to one entry: lower bound applied
when `wmin` is finite, upper bound applied when `wmax` is finite
(clamping against `±inf` is the identity on that side). -/
def clampB (wmin wmax : Option K) (x : K) : K :=
  let y := match wmin with
    | none => x
    | some lo => max x lo
  match wmax with
  | none => y
  | some hi => min y hi

/-- `LearningRule.update` (learning.py lines 67-80): subtract
`weight_decay * w` when `weight_decay` is truthy (nonzero), then clamp
into `[wmin, wmax]` when `(wmin != -inf or wmax != inf) and not
isinstance(self, NoOp)`. -/
def basePost (isNoOp : Bool) (weight_decay : K) (wmin wmax : Option K)
    (w : Fin m → Fin n → K) : Fin m → Fin n → K :=
  fun i j =>
    let w1 := if weight_decay = 0 then w i j else w i j - weight_decay * w i j
    if (wmin.isSome || wmax.isSome) && !isNoOp then clampB wmin wmax w1 else w1

/-- Claim C1's post-state as the spec words it: the clamp is skipped
whenever either bound is infinite or the rule is NoOp, and otherwise the
result is `clamp((1 - weight_decay) * w, wmin, wmax)`.  Stated from the
spec sentence, to be compared with `basePost` (which is translated from
the source). -/
def specBoundsPost (isNoOp : Bool) (weight_decay : K) (wmin wmax : Option K)
    (w : Fin m → Fin n → K) : Fin m → Fin n → K :=
  fun i j =>
    if isNoOp || wmin.isNone || wmax.isNone then (1 - weight_decay) * w i j
    else clampB wmin wmax ((1 - weight_decay) * w i j)

/-- The amended wording of claim C1: the clamp is skipped only when the
rule is NoOp or BOTH bounds are infinite; with at least one finite bound
the matrix is clamped (the infinite side imposing no constraint). -/
def amendedBoundsPost (isNoOp : Bool) (weight_decay : K) (wmin wmax : Option K)
    (w : Fin m → Fin n → K) : Fin m → Fin n → K :=
  fun i j =>
    if isNoOp || (wmin.isNone && wmax.isNone) then (1 - weight_decay) * w i j
    else clampB wmin wmax ((1 - weight_decay) * w i j)

end BoundsEnforcer

section DenseRules

variable {K : Type} [LinearOrderedField K] {b ns nt : ℕ}

/-- One batch sample of `torch.bmm(u.unsqueeze(2), v.unsqueeze(1))`:
the outer product of a source vector and a target vector. -/
def outerP (u : Fin ns → K) (v : Fin nt → K) : Fin ns → Fin nt → K :=
  fun i j => u i * v j

/-- `Hebbian._connection_update` (lines 523-543): `w += nu[0] *
reduction(bmm(source_s, target_x))`, then `w += nu[1] *
reduction(bmm(source_x, target_s))`, then the shared
`LearningRule.update` post-step. -/
def hebbianConnectionUpdate (nu0 nu1 weight_decay : K) (wmin wmax : Option K)
    (red : (Fin b → Fin ns → Fin nt → K) → Fin ns → Fin nt → K)
    (source_s source_x : Fin b → Fin ns → K)
    (target_s target_x : Fin b → Fin nt → K)
    (w : Fin ns → Fin nt → K) : Fin ns → Fin nt → K :=
  let w1 := fun i j =>
    w i j + nu0 * red (fun k => outerP (source_s k) (target_x k)) i j
  let w2 := fun i j =>
    w1 i j + nu1 * red (fun k => outerP (source_x k) (target_s k)) i j
  basePost false weight_decay wmin wmax w2

/-- The delta part of `PostPre._connection_update` (lines 167-187):
`if self.nu[0]: w -= nu[0] * reduction(bmm(source_s, target_x))`, then
`if self.nu[1]: w += nu[1] * reduction(bmm(source_x, target_s))`.
The truthiness guards of the source are kept. -/
def postPreConnectionMid (nu0 nu1 : K)
    (red : (Fin b → Fin ns → Fin nt → K) → Fin ns → Fin nt → K)
    (source_s source_x : Fin b → Fin ns → K)
    (target_s target_x : Fin b → Fin nt → K)
    (w : Fin ns → Fin nt → K) : Fin ns → Fin nt → K :=
  let w1 := if nu0 = 0 then w else fun i j =>
    w i j - nu0 * red (fun k => outerP (source_s k) (target_x k)) i j
  if nu1 = 0 then w1 else fun i j =>
    w1 i j + nu1 * red (fun k => outerP (source_x k) (target_s k)) i j

/-- `PostPre._connection_update` (lines 167-189) including the final
`super().update()` post-step. -/
def postPreConnectionUpdate (nu0 nu1 weight_decay : K) (wmin wmax : Option K)
    (red : (Fin b → Fin ns → Fin nt → K) → Fin ns → Fin nt → K)
    (source_s source_x : Fin b → Fin ns → K)
    (target_s target_x : Fin b → Fin nt → K)
    (w : Fin ns → Fin nt → K) : Fin ns → Fin nt → K :=
  basePost false weight_decay wmin wmax
    (postPreConnectionMid nu0 nu1 red source_s source_x target_s target_x w)

end DenseRules

section CalibratedLookup

/-- Python 3 `round` (banker's rounding, half to even) on an exact
rational, as applied entrywise by `round_to_percent`. -/
def pyRound (q : ℚ) : ℤ :=
  if q - ⌊q⌋ < 1 / 2 then ⌊q⌋
  else if 1 / 2 < q - ⌊q⌋ then ⌊q⌋ + 1
  else if 2 ∣ ⌊q⌋ then ⌊q⌋ else ⌊q⌋ + 1

/-- Python `int(...)` truncation toward zero, applied to the guarded
column index before the table read. -/
def pyTrunc (q : ℚ) : ℤ := if 0 ≤ q then ⌊q⌋ else ⌈q⌉

/-- One entry of `WeightDependentPostPre.round_to_percent` (lines
331-347): scale a weight entry by `1/nu[0]`, multiply by 100, round to
the nearest integer, and negate if negative (absolute value). -/
def round_to_percent (nu0 w : ℚ) : ℤ := |pyRound (w / nu0 * 100)|

/-- A read `STDP_base[i][k]` of the 101×120 calibration tensor with
torch index semantics: a negative index within range wraps around, and
an index outside `[-size, size-1]` is an IndexError (`none`). -/
def tableRead (table : Fin 101 → Fin 120 → ℚ) (i j : ℤ) : Option ℚ :=
  let i' := if i < 0 then i + 101 else i
  let j' := if j < 0 then j + 120 else j
  if h : 0 ≤ i' ∧ i' < 101 ∧ 0 ≤ j' ∧ j' < 120 then
    some (table ⟨i'.toNat, by omega⟩ ⟨j'.toNat, by omega⟩)
  else none

/-- The raw per-entry column index of `delta_w_custom` (line 353):
`second_index = delta + 60`. -/
def secondRaw (δ : ℚ) : ℚ := δ + 60

/-- The guarded column index (lines 358-360): replaced by `0` when
`second_index > 120 or second_index < 0`. -/
def guardedSecond (δ : ℚ) : ℚ :=
  if 120 < secondRaw δ ∨ secondRaw δ < 0 then 0 else secondRaw δ

/-- One entry of `WeightDependentPostPre.delta_w_custom` (lines
350-372): row index from `round_to_percent(self.connection.w)`, column
index `delta + 60` guarded against `> 120` and `< 0`, then the
calibration-table read `STDP_base[int(first)][int(second)]`. -/
def delta_w_custom (table : Fin 101 → Fin 120 → ℚ) (nu0 w δ : ℚ) : Option ℚ :=
  tableRead table (round_to_percent nu0 w) (pyTrunc (guardedSecond δ))

end CalibratedLookup

section RewardModulated

/-- Per-connection mutable state of `MSTDP` on a dense connection:
the weight matrix and the lazily zero-initialised `p_plus`
`[batch, source]`, `p_minus` `[batch, target]` and point `eligibility`
`[batch, source, target]`. -/
structure MSTDPState (b ns nt : ℕ) where
  w : Fin ns → Fin nt → ℝ
  p_plus : Fin b → Fin ns → ℝ
  p_minus : Fin b → Fin nt → ℝ
  eligibility : Fin b → Fin ns → Fin nt → ℝ

/-- The per-call signals of one `MSTDP._connection_update` invocation:
current spikes, the required reward, and the optional `a_plus`/`a_minus`
(defaults 1.0 and -1.0). -/
structure MSTDPInput (b ns nt : ℕ) where
  source_s : Fin b → Fin ns → ℝ
  target_s : Fin b → Fin nt → ℝ
  reward : ℝ
  a_plus : ℝ
  a_minus : ℝ

/-- `MSTDP._connection_update` (lines 627-672): weight update from the
previous step's point eligibility scaled by the reward and reduced over
the batch, then the `p_plus`/`p_minus` exponential recurrences, then the
recomputation of the point eligibility, then the shared post-step. -/
noncomputable def mstdpStep (nu0 dt tc_plus tc_minus weight_decay : ℝ)
    {b ns nt : ℕ} (wmin wmax : Option ℝ)
    (red : (Fin b → Fin ns → Fin nt → ℝ) → Fin ns → Fin nt → ℝ)
    (st : MSTDPState b ns nt) (inp : MSTDPInput b ns nt) : MSTDPState b ns nt :=
  let w1 := fun i j => st.w i j
    + nu0 * red (fun k i j => inp.reward * st.eligibility k i j) i j
  let pPlus := fun k i =>
    Real.exp (-dt / tc_plus) * st.p_plus k i + inp.a_plus * inp.source_s k i
  let pMinus := fun k j =>
    Real.exp (-dt / tc_minus) * st.p_minus k j + inp.a_minus * inp.target_s k j
  let elig := fun k i j =>
    pPlus k i * inp.target_s k j + inp.source_s k i * pMinus k j
  ⟨basePost false weight_decay wmin wmax w1, pPlus, pMinus, elig⟩

/-- A sequence of `MSTDP` dense update calls starting from the lazily
zero-initialised state around an initial weight matrix. -/
noncomputable def mstdpRun (nu0 dt tc_plus tc_minus weight_decay : ℝ)
    {b ns nt : ℕ} (wmin wmax : Option ℝ)
    (red : (Fin b → Fin ns → Fin nt → ℝ) → Fin ns → Fin nt → ℝ)
    (w0 : Fin ns → Fin nt → ℝ) (ins : List (MSTDPInput b ns nt)) :
    MSTDPState b ns nt :=
  List.foldl (mstdpStep nu0 dt tc_plus tc_minus weight_decay wmin wmax red)
    ⟨w0, fun _ _ => 0, fun _ _ => 0, fun _ _ _ => 0⟩ ins

/-- Per-connection mutable state of `MSTDPET` on a dense connection
(un-batched): `p_plus` `[source]`, `p_minus` `[target]`, point
`eligibility` and `eligibility_trace` of the weight's shape. -/
structure MSTDPETState (ns nt : ℕ) where
  w : Fin ns → Fin nt → ℝ
  p_plus : Fin ns → ℝ
  p_minus : Fin nt → ℝ
  eligibility : Fin ns → Fin nt → ℝ
  eligibility_trace : Fin ns → Fin nt → ℝ

/-- The per-call signals of one `MSTDPET._connection_update` invocation
(dense form flattens away the batch axis). -/
structure MSTDPETInput (ns nt : ℕ) where
  source_s : Fin ns → ℝ
  target_s : Fin nt → ℝ
  reward : ℝ
  a_plus : ℝ
  a_minus : ℝ

/-- `MSTDPET._connection_update` (lines 791-841): decay the eligibility
trace by `exp(-dt/tc_e_trace)` and add `eligibility / tc_e_trace`, apply
`w += nu[0] * dt * reward * eligibility_trace` with the just-updated
trace, update `p_plus`/`p_minus`, recompute the point eligibility
(`torch.ger` outer products), then the shared post-step. -/
noncomputable def mstdpetStep (nu0 dt tc_plus tc_minus tc_e_trace weight_decay : ℝ)
    {ns nt : ℕ} (wmin wmax : Option ℝ)
    (st : MSTDPETState ns nt) (inp : MSTDPETInput ns nt) : MSTDPETState ns nt :=
  let trace := fun i j =>
    Real.exp (-dt / tc_e_trace) * st.eligibility_trace i j
      + st.eligibility i j / tc_e_trace
  let w1 := fun i j => st.w i j + nu0 * dt * inp.reward * trace i j
  let pPlus := fun i =>
    Real.exp (-dt / tc_plus) * st.p_plus i + inp.a_plus * inp.source_s i
  let pMinus := fun j =>
    Real.exp (-dt / tc_minus) * st.p_minus j + inp.a_minus * inp.target_s j
  let elig := fun i j =>
    pPlus i * inp.target_s j + inp.source_s i * pMinus j
  ⟨basePost false weight_decay wmin wmax w1, pPlus, pMinus, elig, trace⟩

/-- A sequence of `MSTDPET` dense update calls starting from the lazily
zero-initialised state around an initial weight matrix. -/
noncomputable def mstdpetRun (nu0 dt tc_plus tc_minus tc_e_trace weight_decay : ℝ)
    {ns nt : ℕ} (wmin wmax : Option ℝ)
    (w0 : Fin ns → Fin nt → ℝ) (ins : List (MSTDPETInput ns nt)) :
    MSTDPETState ns nt :=
  List.foldl (mstdpetStep nu0 dt tc_plus tc_minus tc_e_trace weight_decay wmin wmax)
    ⟨w0, fun _ => 0, fun _ => 0, fun _ _ => 0, fun _ _ => 0⟩ ins

/-- Per-connection mutable state of `Rmax`: the weight matrix and the
un-batched `eligibility_trace` of the weight's shape. -/
structure RmaxState (K : Type) (ns nt : ℕ) where
  w : Fin ns → Fin nt → K
  eligibility_trace : Fin ns → Fin nt → K

/-- The per-call signals of one `Rmax._connection_update` invocation:
target spikes, target firing probabilities `s_prob`, the source
(additive) trace, and the required reward. -/
structure RmaxInput (K : Type) (ns nt : ℕ) where
  target_s : Fin nt → K
  target_s_prob : Fin nt → K
  source_x : Fin ns → K
  reward : K

/-- `Rmax._connection_update` (lines 973-1004): decay the eligibility
trace by `1 - dt/tc_e_trace`, add the bias-corrected Hebbian outer
product `(target_s - target_s_prob / (1 + tc_c/dt * target_s_prob)) *
source_x[:, None]`, apply `w += nu[0] * reward * eligibility_trace`,
then the shared post-step. -/
def rmaxStep {K : Type} [LinearOrderedField K] (nu0 dt tc_c tc_e_trace weight_decay : K)
    {ns nt : ℕ} (wmin wmax : Option K)
    (st : RmaxState K ns nt) (inp : RmaxInput K ns nt) : RmaxState K ns nt :=
  let trace := fun i j =>
    (1 - dt / tc_e_trace) * st.eligibility_trace i j
      + (inp.target_s j
          - inp.target_s_prob j / (1 + tc_c / dt * inp.target_s_prob j))
        * inp.source_x i
  let w1 := fun i j => st.w i j + nu0 * inp.reward * trace i j
  ⟨basePost false weight_decay wmin wmax w1, trace⟩

/-- The keyword-argument signal set of one update call:
`kwargs["reward"]` is required by the reward-modulated rules (a missing
key is a fatal KeyError), `a_plus`/`a_minus` fall back to `1.0`/`-1.0`
through `kwargs.get`. -/
structure RuleKwargs (K : Type) where
  reward : Option K
  a_plus : Option K
  a_minus : Option K

/-- The `MSTDP._connection_update` entry point with its keyword-argument
parsing (line 653): `reward = kwargs["reward"]` fails (`none`) before
any weight change when the reward is absent. -/
noncomputable def mstdpUpdateCall (nu0 dt tc_plus tc_minus weight_decay : ℝ)
    {b ns nt : ℕ} (wmin wmax : Option ℝ)
    (red : (Fin b → Fin ns → Fin nt → ℝ) → Fin ns → Fin nt → ℝ)
    (source_s : Fin b → Fin ns → ℝ) (target_s : Fin b → Fin nt → ℝ)
    (kw : RuleKwargs ℝ) (st : MSTDPState b ns nt) : Option (MSTDPState b ns nt) :=
  match kw.reward with
  | none => none
  | some r =>
      some (mstdpStep nu0 dt tc_plus tc_minus weight_decay wmin wmax red st
        ⟨source_s, target_s, r, kw.a_plus.getD 1, kw.a_minus.getD (-1)⟩)

/-- The `MSTDPET._connection_update` entry point with its
keyword-argument parsing (line 817). -/
noncomputable def mstdpetUpdateCall (nu0 dt tc_plus tc_minus tc_e_trace weight_decay : ℝ)
    {ns nt : ℕ} (wmin wmax : Option ℝ)
    (source_s : Fin ns → ℝ) (target_s : Fin nt → ℝ)
    (kw : RuleKwargs ℝ) (st : MSTDPETState ns nt) : Option (MSTDPETState ns nt) :=
  match kw.reward with
  | none => none
  | some r =>
      some (mstdpetStep nu0 dt tc_plus tc_minus tc_e_trace weight_decay wmin wmax st
        ⟨source_s, target_s, r, kw.a_plus.getD 1, kw.a_minus.getD (-1)⟩)

/-- The `Rmax._connection_update` entry point with its keyword-argument
parsing (line 992): only `reward` is read from the kwargs. -/
def rmaxUpdateCall {K : Type} [LinearOrderedField K]
    (nu0 dt tc_c tc_e_trace weight_decay : K)
    {ns nt : ℕ} (wmin wmax : Option K)
    (target_s target_s_prob : Fin nt → K) (source_x : Fin ns → K)
    (kw : RuleKwargs K) (st : RmaxState K ns nt) : Option (RmaxState K ns nt) :=
  match kw.reward with
  | none => none
  | some r =>
      some (rmaxStep nu0 dt tc_c tc_e_trace weight_decay wmin wmax st
        ⟨target_s, target_s_prob, source_x, r⟩)

/-- The `Hebbian._connection_update` entry point: the `**kwargs` signal
set is accepted but never read, so the call succeeds whatever it holds
(in particular with no reward). -/
def hebbianUpdateCall {K : Type} [LinearOrderedField K]
    (nu0 nu1 weight_decay : K) {b ns nt : ℕ} (wmin wmax : Option K)
    (red : (Fin b → Fin ns → Fin nt → K) → Fin ns → Fin nt → K)
    (source_s source_x : Fin b → Fin ns → K)
    (target_s target_x : Fin b → Fin nt → K)
    (_kw : RuleKwargs K) (w : Fin ns → Fin nt → K) :
    Option (Fin ns → Fin nt → K) :=
  some (hebbianConnectionUpdate nu0 nu1 weight_decay wmin wmax red
    source_s source_x target_s target_x w)

/-- The `PostPre._connection_update` entry point: the `**kwargs` signal
set is accepted but never read. -/
def postPreUpdateCall {K : Type} [LinearOrderedField K]
    (nu0 nu1 weight_decay : K) {b ns nt : ℕ} (wmin wmax : Option K)
    (red : (Fin b → Fin ns → Fin nt → K) → Fin ns → Fin nt → K)
    (source_s source_x : Fin b → Fin ns → K)
    (target_s target_x : Fin b → Fin nt → K)
    (_kw : RuleKwargs K) (w : Fin ns → Fin nt → K) :
    Option (Fin ns → Fin nt → K) :=
  some (postPreConnectionUpdate nu0 nu1 weight_decay wmin wmax red
    source_s source_x target_s target_x w)

end RewardModulated

/-- Claim C1: the shared post-processing step first applies the decay
and then clamps unless either bound is infinite or the rule is NoOp.
FALSE on the source: the clamp condition is `wmin != -inf OR wmax !=
inf`, so a single finite bound already triggers clamping.  Concretely
with `wmin = 0`, `wmax = inf`, `weight_decay = 0` and a 1×1 weight
matrix holding `-1`, the source clamps to `0` while the spec wording
skips the clamp and keeps `-1`. -/
theorem bounds_post_one_finite_bound_still_clamps :
    basePost false (0 : ℚ) (some 0) none (fun _ _ => (-1 : ℚ)) (0 : Fin 1) (0 : Fin 1)
      ≠ specBoundsPost false (0 : ℚ) (some 0) none (fun _ _ => (-1 : ℚ)) (0 : Fin 1) (0 : Fin 1) := by
  norm_num [basePost, specBoundsPost, clampB]

/-- Claim C1 (amended): for every weight matrix, decay and pair of
bounds, the post-state is `clamp((1 - weight_decay) * w, wmin, wmax)`,
the clamp being skipped exactly when the rule is NoOp or both bounds are
infinite (a single infinite bound merely imposes no constraint on its
own side). -/
theorem bounds_post_amended_characterization (m n : ℕ) (isNoOp : Bool)
    (weight_decay : ℚ) (wmin wmax : Option ℚ) (w : Fin m → Fin n → ℚ) :
    basePost isNoOp weight_decay wmin wmax w
      = amendedBoundsPost isNoOp weight_decay wmin wmax w := by
  funext i j
  have hw1 : (if weight_decay = 0 then w i j else w i j - weight_decay * w i j)
      = (1 - weight_decay) * w i j := by
    by_cases h : weight_decay = 0
    · simp [h]
    · simp only [if_neg h]; ring
  simp only [basePost, amendedBoundsPost, hw1]
  cases isNoOp <;> cases wmin <;> cases wmax <;> simp [clampB]

/-- Claim C3: for the Hebbian rule on a dense/local connection with
infinite bounds, zero weight decay and `nu = [0.1, 0.2]`, one update
yields exactly `w + 0.1 * reduce(outer(pre_spike, post_trace)) + 0.2 *
reduce(outer(pre_trace, post_spike))`, both terms added. -/
theorem hebbian_dense_exact_update (b ns nt : ℕ)
    (red : (Fin b → Fin ns → Fin nt → ℚ) → Fin ns → Fin nt → ℚ)
    (source_s source_x : Fin b → Fin ns → ℚ)
    (target_s target_x : Fin b → Fin nt → ℚ)
    (w : Fin ns → Fin nt → ℚ) :
    hebbianConnectionUpdate (1 / 10) (1 / 5) 0 none none red
        source_s source_x target_s target_x w
      = fun i j => w i j
          + 1 / 10 * red (fun k => outerP (source_s k) (target_x k)) i j
          + 1 / 5 * red (fun k => outerP (source_x k) (target_s k)) i j := by
  funext i j
  simp [hebbianConnectionUpdate, basePost]

/-- Claim C4: for every PostPre dense/local update and all learning
rates, spikes and traces, the weight delta before the shared post-step
is `-nu[0] * reduce(outer(pre_spike, post_trace)) + nu[1] *
reduce(outer(pre_trace, post_spike))` (the source's truthiness guards
around each term change nothing, since a skipped term is a zero term). -/
theorem postpre_dense_signed_update (b ns nt : ℕ) (nu0 nu1 : ℚ)
    (red : (Fin b → Fin ns → Fin nt → ℚ) → Fin ns → Fin nt → ℚ)
    (source_s source_x : Fin b → Fin ns → ℚ)
    (target_s target_x : Fin b → Fin nt → ℚ)
    (w : Fin ns → Fin nt → ℚ) :
    postPreConnectionMid nu0 nu1 red source_s source_x target_s target_x w
      = fun i j => w i j
          - nu0 * red (fun k => outerP (source_s k) (target_x k)) i j
          + nu1 * red (fun k => outerP (source_x k) (target_s k)) i j := by
  funext i j
  by_cases h0 : nu0 = 0 <;> by_cases h1 : nu1 = 0 <;>
    simp [postPreConnectionMid, h0, h1]

/-- Claim C7: for a PostPre rule on a connection with finite bounds
`wmin = 0` and `wmax = 1`, after every update call every entry of the
weight matrix lies in `[0, 1]`, for all spike/trace inputs, learning
rates and weight decay. -/
theorem postpre_bounded_weights_in_unit_interval (b ns nt : ℕ)
    (nu0 nu1 weight_decay : ℚ)
    (red : (Fin b → Fin ns → Fin nt → ℚ) → Fin ns → Fin nt → ℚ)
    (source_s source_x : Fin b → Fin ns → ℚ)
    (target_s target_x : Fin b → Fin nt → ℚ)
    (w : Fin ns → Fin nt → ℚ) (i : Fin ns) (j : Fin nt) :
    0 ≤ postPreConnectionUpdate nu0 nu1 weight_decay (some 0) (some 1) red
          source_s source_x target_s target_x w i j
    ∧ postPreConnectionUpdate nu0 nu1 weight_decay (some 0) (some 1) red
          source_s source_x target_s target_x w i j ≤ 1 := by
  have key : ∀ x : ℚ, 0 ≤ min (max x 0) 1 ∧ min (max x 0) 1 ≤ 1 := fun x =>
    ⟨le_min (le_max_right x 0) zero_le_one, min_le_right _ _⟩
  exact key _

/-- Claim C2: in every sequence of MSTDP dense update calls, the weight
change applied by a call is `nu[0] * reduce(reward * eligibility)` with
the point eligibility held from the previous call (zero before the
first call); the eligibility recomputed inside the call feeds only later
calls. -/
theorem mstdp_weight_update_uses_previous_eligibility
    (b ns nt : ℕ) (nu0 dt tc_plus tc_minus weight_decay : ℝ)
    (wmin wmax : Option ℝ)
    (red : (Fin b → Fin ns → Fin nt → ℝ) → Fin ns → Fin nt → ℝ)
    (w0 : Fin ns → Fin nt → ℝ) (ins : List (MSTDPInput b ns nt))
    (inp : MSTDPInput b ns nt) :
    (mstdpRun nu0 dt tc_plus tc_minus weight_decay wmin wmax red w0
        (ins ++ [inp])).w
      = basePost false weight_decay wmin wmax
          (fun i j =>
            (mstdpRun nu0 dt tc_plus tc_minus weight_decay wmin wmax red w0 ins).w i j
              + nu0 * red (fun k i j => inp.reward
                  * (mstdpRun nu0 dt tc_plus tc_minus weight_decay wmin wmax red w0
                      ins).eligibility k i j) i j)
    ∧ (mstdpRun nu0 dt tc_plus tc_minus weight_decay wmin wmax red w0
        ([] : List (MSTDPInput b ns nt))).eligibility = fun _ _ _ => 0 := by
  constructor
  · simp only [mstdpRun, List.foldl_append, List.foldl_cons, List.foldl_nil]
    rfl
  · rfl

/-- Claim C6: in every sequence of MSTDPET dense update calls, the
eligibility trace is the exact IIR filter `trace ← exp(-dt/tc_e_trace) *
trace + eligibility / tc_e_trace` of the point eligibility held from the
previous call, and the same call's weight change is `nu[0] * dt * reward
* eligibility_trace` with the just-updated trace. -/
theorem mstdpet_trace_iir_and_weight_update
    (ns nt : ℕ) (nu0 dt tc_plus tc_minus tc_e_trace weight_decay : ℝ)
    (wmin wmax : Option ℝ) (w0 : Fin ns → Fin nt → ℝ)
    (ins : List (MSTDPETInput ns nt)) (inp : MSTDPETInput ns nt) :
    (mstdpetRun nu0 dt tc_plus tc_minus tc_e_trace weight_decay wmin wmax w0
        (ins ++ [inp])).eligibility_trace
      = (fun i j => Real.exp (-dt / tc_e_trace)
            * (mstdpetRun nu0 dt tc_plus tc_minus tc_e_trace weight_decay wmin wmax w0
                ins).eligibility_trace i j
          + (mstdpetRun nu0 dt tc_plus tc_minus tc_e_trace weight_decay wmin wmax w0
              ins).eligibility i j / tc_e_trace)
    ∧ (mstdpetRun nu0 dt tc_plus tc_minus tc_e_trace weight_decay wmin wmax w0
        (ins ++ [inp])).w
      = basePost false weight_decay wmin wmax
          (fun i j =>
            (mstdpetRun nu0 dt tc_plus tc_minus tc_e_trace weight_decay wmin wmax w0
                ins).w i j
              + nu0 * dt * inp.reward
                * (mstdpetRun nu0 dt tc_plus tc_minus tc_e_trace weight_decay wmin wmax w0
                    (ins ++ [inp])).eligibility_trace i j)
    ∧ (mstdpetRun nu0 dt tc_plus tc_minus tc_e_trace weight_decay wmin wmax w0
        ([] : List (MSTDPETInput ns nt))).eligibility = fun _ _ => 0 := by
  refine ⟨?_, ?_, rfl⟩ <;>
    simp only [mstdpetRun, List.foldl_append, List.foldl_cons, List.foldl_nil] <;>
    rfl

/-- Claim C8: every Rmax update call first rescales the eligibility
trace by `1 - dt/tc_e_trace`, then adds the outer product of the
bias-corrected post term `post_spike - post_spike_prob / (1 + (tc_c/dt)
* post_spike_prob)` with the pre trace, and changes the weights by
`nu[0] * reward * eligibility_trace` before the shared post-step. -/
theorem rmax_eligibility_and_weight_update (ns nt : ℕ)
    (nu0 dt tc_c tc_e_trace weight_decay : ℚ) (wmin wmax : Option ℚ)
    (st : RmaxState ℚ ns nt) (inp : RmaxInput ℚ ns nt) :
    (rmaxStep nu0 dt tc_c tc_e_trace weight_decay wmin wmax st inp).eligibility_trace
      = (fun i j => (1 - dt / tc_e_trace) * st.eligibility_trace i j
          + (inp.target_s j
              - inp.target_s_prob j / (1 + tc_c / dt * inp.target_s_prob j))
            * inp.source_x i)
    ∧ (rmaxStep nu0 dt tc_c tc_e_trace weight_decay wmin wmax st inp).w
      = basePost false weight_decay wmin wmax
          (fun i j => st.w i j + nu0 * inp.reward
            * (rmaxStep nu0 dt tc_c tc_e_trace weight_decay wmin wmax st inp).eligibility_trace i j) :=
  ⟨rfl, rfl⟩

/-- Claim C9: the reward-modulated rules (MSTDP, MSTDPET, Rmax) fail
exactly when their call's keyword-argument set lacks a reward (the
failure happening before any weight change), while the non-reward rules
(Hebbian, PostPre) succeed with any keyword-argument set. -/
theorem reward_required_for_reward_modulated_rules
    (b ns nt : ℕ)
    (nu0 nu1 dt tc_plus tc_minus tc_e_trace tc_c weight_decay : ℝ)
    (wmin wmax : Option ℝ)
    (red : (Fin b → Fin ns → Fin nt → ℝ) → Fin ns → Fin nt → ℝ)
    (source_s source_x : Fin b → Fin ns → ℝ)
    (target_s target_x : Fin b → Fin nt → ℝ)
    (source_s1 source_x1 : Fin ns → ℝ) (target_s1 target_sp1 : Fin nt → ℝ)
    (kw1 kw2 kw3 kw4 kw5 : RuleKwargs ℝ)
    (st1 : MSTDPState b ns nt) (st2 : MSTDPETState ns nt)
    (st3 : RmaxState ℝ ns nt) (w : Fin ns → Fin nt → ℝ) :
    (mstdpUpdateCall nu0 dt tc_plus tc_minus weight_decay wmin wmax red
        source_s target_s kw1 st1).isNone = kw1.reward.isNone
    ∧ (mstdpetUpdateCall nu0 dt tc_plus tc_minus tc_e_trace weight_decay wmin wmax
        source_s1 target_s1 kw2 st2).isNone = kw2.reward.isNone
    ∧ (rmaxUpdateCall nu0 dt tc_c tc_e_trace weight_decay wmin wmax
        target_s1 target_sp1 source_x1 kw3 st3).isNone = kw3.reward.isNone
    ∧ (hebbianUpdateCall nu0 nu1 weight_decay wmin wmax red
        source_s source_x target_s target_x kw4 w).isNone = false
    ∧ (postPreUpdateCall nu0 nu1 weight_decay wmin wmax red
        source_s source_x target_s target_x kw5 w).isNone = false := by
  refine ⟨?_, ?_, ?_, rfl, rfl⟩
  · obtain ⟨r, a, c⟩ := kw1
    cases r <;> rfl
  · obtain ⟨r, a, c⟩ := kw2
    cases r <;> rfl
  · obtain ⟨r, a, c⟩ := kw3
    cases r <;> rfl

/-- Claim C5: in the dense calibrated lookup, every per-synapse delta
index outside `[0, 120]` (for instance `121` or `-5`) is replaced with
`0`, so the read happens at calibration-table column `0` — a defined
fallback, with no out-of-bounds access caused by such an index (the read
succeeds whenever the row index is itself in range). -/
theorem wdpp_out_of_range_delta_index_zero (table : Fin 101 → Fin 120 → ℚ)
    (nu0 w δ : ℚ) (h : 120 < secondRaw δ ∨ secondRaw δ < 0) :
    guardedSecond δ = 0
    ∧ delta_w_custom table nu0 w δ = tableRead table (round_to_percent nu0 w) 0
    ∧ (round_to_percent nu0 w ≤ 100 →
        (delta_w_custom table nu0 w δ).isSome = true) := by
  have hg : guardedSecond δ = 0 := by
    rw [guardedSecond, if_pos h]
  have ht : pyTrunc (guardedSecond δ) = 0 := by
    rw [hg, pyTrunc, if_pos le_rfl]
    exact Int.floor_zero
  refine ⟨hg, ?_, ?_⟩
  · rw [delta_w_custom, ht]
  · intro hle
    have h0 : 0 ≤ round_to_percent nu0 w := abs_nonneg _
    have hnot : ¬ round_to_percent nu0 w < 0 := not_lt.mpr h0
    rw [delta_w_custom, ht, tableRead]
    simp only [hnot, if_false]
    rw [dif_pos]
    · rfl
    · refine ⟨h0, by omega, by norm_num⟩

/-- Witness for claim C5 at the two boundary delta indices named by the
spec: `121` (delta `61`) and `-5` (delta `-65`). -/
theorem wdpp_out_of_range_delta_index_zero_witness :
    (guardedSecond 61 = 0
      ∧ delta_w_custom (fun _ _ => (0 : ℚ)) 1 0 61
          = tableRead (fun _ _ => (0 : ℚ)) (round_to_percent 1 0) 0
      ∧ (round_to_percent (1 : ℚ) 0 ≤ 100 →
          (delta_w_custom (fun _ _ => (0 : ℚ)) 1 0 61).isSome = true))
    ∧ (guardedSecond (-65) = 0
      ∧ delta_w_custom (fun _ _ => (0 : ℚ)) 1 0 (-65)
          = tableRead (fun _ _ => (0 : ℚ)) (round_to_percent 1 0) 0
      ∧ (round_to_percent (1 : ℚ) 0 ≤ 100 →
          (delta_w_custom (fun _ _ => (0 : ℚ)) 1 0 (-65)).isSome = true)) :=
  ⟨wdpp_out_of_range_delta_index_zero (fun _ _ => (0 : ℚ)) 1 0 61
      (Or.inl (by norm_num [secondRaw])),
   wdpp_out_of_range_delta_index_zero (fun _ _ => (0 : ℚ)) 1 0 (-65)
      (Or.inr (by norm_num [secondRaw]))⟩

/-- Claim C10: every index pair used to read the 101×120 calibration
table would have to satisfy row ∈ [0, 100] and column ∈ [0, 119], with a
delta index of exactly `120` never reaching the read.  FALSE on the
source, in two ways evaluated here: a delta of `60` gives column index
`120`, which passes the `> 120 or < 0` guard yet is outside the table's
columns `0..119` (an IndexError, `none`); and a weight of `2` with
`nu[0] = 1` gives row index `200 > 100`, outside the table's rows
`0..100` (again `none`). -/
theorem wdpp_lookup_reads_out_of_bounds (table : Fin 101 → Fin 120 → ℚ) :
    guardedSecond 60 = 120
    ∧ delta_w_custom table 1 0 60 = none
    ∧ round_to_percent 1 2 = 200
    ∧ delta_w_custom table 1 2 0 = none := by
  have hg60 : guardedSecond 60 = 120 := by
    rw [guardedSecond, if_neg (by norm_num [secondRaw])]
    norm_num [secondRaw]
  have hround : ∀ q : ℚ, ∀ z : ℤ, (q : ℚ) = (z : ℚ) → pyRound q = z := by
    intro q z hq
    rw [pyRound, hq]
    rw [Int.floor_intCast]
    norm_num
  have hr0 : round_to_percent (1 : ℚ) 0 = 0 := by
    rw [round_to_percent]
    rw [hround (0 / 1 * 100) 0 (by norm_num)]
    rfl
  have hr2 : round_to_percent (1 : ℚ) 2 = 200 := by
    rw [round_to_percent]
    rw [hround (2 / 1 * 100) 200 (by norm_num)]
    rfl
  refine ⟨hg60, ?_, hr2, ?_⟩
  · rw [delta_w_custom, hg60, hr0, pyTrunc, if_pos (by norm_num)]
    rw [show ⌊(120 : ℚ)⌋ = 120 from by norm_num [Int.floor_eq_iff]]
    rw [tableRead]
    norm_num
  · have hg0 : guardedSecond 0 = 60 := by
      rw [guardedSecond, if_neg (by norm_num [secondRaw])]
      norm_num [secondRaw]
    rw [delta_w_custom, hg0, hr2, pyTrunc, if_pos (by norm_num)]
    rw [show ⌊(60 : ℚ)⌋ = 60 from by norm_num [Int.floor_eq_iff]]
    rw [tableRead]
    norm_num
